import Mathlib

/-!
Verification of the pdftext geometric clustering and text normalization
pipeline, shallowly embedded from the Python source.

Coordinates are modelled as rationals (exact arithmetic in place of Python
floats), Python strings as lists of characters (lists of raw code points
where surrogates matter), and each Python function is translated to a Lean
definition of the same name where possible.
-/

namespace PdfText

/-- Python round(x, 0): round half to even (banker's rounding), as used on
the bbox coordinates in deduplicate_chars. -/
def pyRound (q : ℚ) : ℤ :=
  let f : ℤ := ⌊q⌋
  let r : ℚ := q - f
  if r < 1/2 then f
  else if 1/2 < r then f + 1
  else if 2 ∣ f then f else f + 1

/-- Python int(x) on a float: truncation toward zero, as used on the word
rotation in deduplicate_chars. -/
def pyInt (q : ℚ) : ℤ :=
  if q < 0 then -⌊-q⌋ else ⌊q⌋

/-- The set of characters Python's str.isspace, str.strip and str.rstrip
treat as whitespace. -/
def pyIsSpace (c : Char) : Bool :=
  c.toNat ∈ [0x09, 0x0A, 0x0B, 0x0C, 0x0D, 0x1C, 0x1D, 0x1E, 0x1F, 0x20,
    0x85, 0xA0, 0x1680, 0x2000, 0x2001, 0x2002, 0x2003, 0x2004, 0x2005,
    0x2006, 0x2007, 0x2008, 0x2009, 0x200A, 0x2028, 0x2029, 0x202F,
    0x205F, 0x3000]

/-- Python str.rstrip() on a string modelled as a list of characters. -/
def pyRstrip (t : List Char) : List Char :=
  (t.reverse.dropWhile pyIsSpace).reverse

/-- Python str.strip() on a string modelled as a list of characters. -/
def pyStrip (t : List Char) : List Char :=
  pyRstrip (t.dropWhile pyIsSpace)

/-- schema.Bbox: the four floats bbox[0..3] of the Python class, with
bbox[0] = x_start, bbox[1] = y_start, bbox[2] = x_end, bbox[3] = y_end. -/
structure Bbox where
  x_start : ℚ
  y_start : ℚ
  x_end : ℚ
  y_end : ℚ
  deriving DecidableEq, Repr

namespace Bbox

/-- schema.Bbox.__init__ with the ensure_nonzero_area flag: when set, the
end coordinates are bumped to max(start, end + 1). -/
def mk_ensure (b : Bbox) (ensure_nonzero_area : Bool) : Bbox :=
  if ensure_nonzero_area then
    ⟨b.x_start, b.y_start, max b.x_start (b.x_end + 1), max b.y_start (b.y_end + 1)⟩
  else b

/-- schema.Bbox.height -/
def height (b : Bbox) : ℚ := b.y_end - b.y_start

/-- schema.Bbox.width -/
def width (b : Bbox) : ℚ := b.x_end - b.x_start

/-- schema.Bbox.area -/
def area (b : Bbox) : ℚ := b.width * b.height

/-- schema.Bbox.center (the list [cx, cy] as a pair) -/
def center (b : Bbox) : ℚ × ℚ :=
  ((b.x_start + b.x_end) / 2, (b.y_start + b.y_end) / 2)

/-- schema.Bbox.inside: full containment of self in other. -/
def inside (b other : Bbox) : Prop :=
  b.x_start ≥ other.x_start ∧ b.x_end ≤ other.x_end ∧
  b.y_start ≥ other.y_start ∧ b.y_end ≤ other.y_end

instance (b other : Bbox) : Decidable (inside b other) := by
  unfold inside; infer_instance

/-- schema.Bbox.merge: componentwise min of starts and max of ends. -/
def merge (b other : Bbox) : Bbox :=
  ⟨min b.x_start other.x_start, min b.y_start other.y_start,
   max b.x_end other.x_end, max b.y_end other.y_end⟩

/-- schema.Bbox.overlap_x -/
def overlap_x (b other : Bbox) : ℚ :=
  max 0 (min b.x_end other.x_end - max b.x_start other.x_start)

/-- schema.Bbox.overlap_y -/
def overlap_y (b other : Bbox) : ℚ :=
  max 0 (min b.y_end other.y_end - max b.y_start other.y_start)

/-- schema.Bbox.horizontal_distance -/
def horizontal_distance (b other : Bbox) : ℚ :=
  if b.x_start < other.x_start then other.x_start - b.x_start
  else if other.x_end < b.x_start then b.x_start - other.x_end
  else 0

/-- schema.Bbox.intersection_area -/
def intersection_area (b other : Bbox) : ℚ :=
  b.overlap_x other * b.overlap_y other

/-- schema.Bbox.intersection_pct: intersection area over self's area, 0 for
a degenerate self. -/
def intersection_pct (b other : Bbox) : ℚ :=
  if b.area = 0 then 0 else b.intersection_area other / b.area

/-- schema.Bbox.intersection_score: intersection over the smaller area,
falling back to a containment test when either box is degenerate. -/
def intersection_score (b other : Bbox) : ℚ :=
  if b.area = 0 ∨ other.area = 0 then
    if b.inside other ∨ other.inside b then 1 else 0
  else b.intersection_area other / min b.area other.area

/-- schema.Bbox.rotate: rejects any rotation outside {0, 90, 180, 270}
(the Python code raises ValueError, modelled as none); at 0 returns a box
with the same coordinates; otherwise applies the corner formulas and
re-normalizes min/max. -/
def rotate (b : Bbox) (page_width page_height : ℚ) (rotation : ℤ) :
    Option Bbox :=
  if rotation = 0 then some ⟨b.x_start, b.y_start, b.x_end, b.y_end⟩
  else if rotation = 90 then
    let nxmin := page_height - b.y_end
    let nymin := b.x_start
    let nxmax := page_height - b.y_start
    let nymax := b.x_end
    some ⟨min nxmin nxmax, min nymin nymax, max nxmin nxmax, max nymin nymax⟩
  else if rotation = 180 then
    let nxmin := page_width - b.x_end
    let nymin := page_height - b.y_end
    let nxmax := page_width - b.x_start
    let nymax := page_height - b.y_start
    some ⟨min nxmin nxmax, min nymin nymax, max nxmin nxmax, max nymin nymax⟩
  else if rotation = 270 then
    let nxmin := b.y_start
    let nymin := page_width - b.x_end
    let nxmax := b.y_end
    let nymax := page_width - b.x_start
    some ⟨min nxmin nxmax, min nymin nymax, max nxmin nxmax, max nymin nymax⟩
  else none

end Bbox

/-- extraction.dictionary_output, page-bbox rebuild for rotation 90/270:
the code constructs Bbox([bbox[2], bbox[3], bbox[0], bbox[1]]) from the
page bbox. -/
def dictionary_output_rotated_page_bbox (b : Bbox) : Bbox :=
  ⟨b.x_end, b.y_end, b.x_start, b.y_start⟩

/-! ### Text postprocessing (postprocessing.py), string side -/

/-- pdf.utils.LINE_BREAKS (each entry is a single character). -/
def LINE_BREAKS : List Char := ['\n', '\x0d', '\x0a']

/-- pdf.utils.TABS -/
def TABS : List Char := ['\t', '\x09', '\x09']

/-- pdf.utils.SPACES: space, U+FFFE, U+FEFF, U+00A0. -/
def SPACES : List Char := [' ', '\uFFFE', '\uFEFF', '\u00A0']

/-- pdf.utils.WHITESPACE_CHARS -/
def WHITESPACE_CHARS : List Char := ['\n', '\r', '\x0c', '\t', ' ']

/-- postprocessing.HYPHEN_CHAR, the internal soft-hyphen marker. -/
def HYPHEN_CHAR : Char := '\x02'

/-- Python str.replace with a single-character pattern: scan left to
right, replacing every occurrence of the pattern character by the
replacement string. -/
def replace_char : List Char → Char → List Char → List Char
  | [], _, _ => []
  | c :: rest, target, repl =>
    if c = target then repl ++ replace_char rest target repl
    else c :: replace_char rest target repl

/-- One iteration of the join-mode loop body of
postprocessing.handle_hyphens: state is (new_text, found_hyphen). -/
def handle_hyphens_step (st : List Char × Bool) (c : Char) :
    List Char × Bool :=
  if c = HYPHEN_CHAR then (st.1, true)
  else if st.2 then
    if c ∈ LINE_BREAKS then st
    else if c ∈ SPACES then (pyRstrip st.1 ++ ['\n'], false)
    else (st.1 ++ [c], st.2)
  else (st.1 ++ [c], st.2)

/-- postprocessing.handle_hyphens. Keep mode replaces the marker by
"-\n"; join mode runs the loop over text[0 .. len-2] (range(len(text)-1)),
i.e. over all characters except the last one. -/
def handle_hyphens (text : List Char) (keep_hyphens : Bool) : List Char :=
  if keep_hyphens then replace_char text HYPHEN_CHAR ['-', '\n']
  else if text.length = 0 then text
  else (text.dropLast.foldl handle_hyphens_step ([], false)).1

/-! ### The page data model (schema.py TypedDicts) -/

/-- The font descriptor dictionary of a Char/Span:
{name, flags, size, weight, color}. -/
structure PdfFont where
  name : List Char
  flags : ℤ
  size : ℚ
  weight : ℤ
  color : List ℤ
  deriving DecidableEq, Repr

/-- schema.Char (named PdfChar as Lean already has Char): one glyph of the
page stream. -/
structure PdfChar where
  bbox : Bbox
  char : List Char
  rotation : ℚ
  font : PdfFont
  char_idx : ℕ
  deriving DecidableEq, Repr

/-- schema.Span. Empty url and false script flags at construction. -/
structure PdfSpan where
  bbox : Bbox
  text : List Char
  font : PdfFont
  chars : List PdfChar
  char_start_idx : ℕ
  char_end_idx : ℕ
  rotation : ℚ
  url : List Char
  superscript : Bool
  subscript : Bool
  deriving DecidableEq, Repr

/-- schema.Line -/
structure PdfLine where
  spans : List PdfSpan
  bbox : Bbox
  rotation : ℚ
  deriving DecidableEq, Repr

/-- schema.Block -/
structure PdfBlock where
  lines : List PdfLine
  bbox : Bbox
  rotation : ℚ
  deriving DecidableEq, Repr

/-- Placeholder line used only as the default of getLastD when reading
the last line of a block; every block the code builds has at least one
line, so the default is never produced. -/
def dfltLine : PdfLine := ⟨[], ⟨0, 0, 0, 0⟩, 0⟩

/-! ### NonTextRegionExtractor (pdf/pages.py get_image_bboxes) -/

/-- A page drawing object as seen by pdf.pages.get_image_bboxes: its
pdfium type tag (0 unknown, 1 text, 2 path, 3 image, 4 shading, 5 form)
and its device bbox, i.e. transform_bbox(page_bbox, page_rotation,
obj.get_pos()), which the code recomputes identically at each use. -/
structure PageObj where
  type : ℤ
  bbox : Bbox
  deriving DecidableEq, Repr

/-- First loop of get_image_bboxes: objects of type 0/5 are skipped,
types 2/3/4 go straight to non_text_objects, everything else contributes
its bbox to text_bboxes. -/
def get_image_bboxes_first_loop_step (acc : List Bbox × List PageObj)
    (obj : PageObj) : List Bbox × List PageObj :=
  if obj.type = 0 ∨ obj.type = 5 then acc
  else if obj.type = 2 ∨ obj.type = 3 ∨ obj.type = 4 then
    (acc.1, acc.2 ++ [obj])
  else (acc.1 ++ [obj.bbox], acc.2)

/-- pdf.pages.get_image_bboxes up to (and excluding) the clipping step
remove_wrong_bboxes: the first loop collects text bboxes and always-kept
non-text objects, the second loop keeps the remaining type-0/5 objects
only when they intersect no text bbox, and the result maps every kept
object to its device bbox. -/
def get_image_bboxes_selection (objects : List PageObj) : List Bbox :=
  let st := objects.foldl get_image_bboxes_first_loop_step ([], [])
  let text_bboxes := st.1
  let non_text_objects := st.2 ++ objects.filter fun obj =>
    decide (obj.type = 0 ∨ obj.type = 5) &&
      ! (text_bboxes.any fun t => decide ((0 : ℚ) < obj.bbox.intersection_area t))
  non_text_objects.map PageObj.bbox

/-! ### BlockAssembler (pdf/pages.py get_blocks) -/

/-- Insertion of one element into an ascending-sorted list of rationals. -/
def insertSorted (x : ℚ) : List ℚ → List ℚ
  | [] => [x]
  | y :: ys => if x ≤ y then x :: y :: ys else y :: insertSorted x ys

/-- Ascending sort of a list of rationals (model of Python sorted). -/
def sortRats (l : List ℚ) : List ℚ := l.foldr insertSorted []

/-- statistics.median on a nonempty list: middle element of the sorted
data for odd length, mean of the two middle elements for even length.
(The default 0 for the empty list is never used: every caller guards.) -/
def median (l : List ℚ) : ℚ :=
  let s := sortRats l
  let n := s.length
  if n % 2 = 1 then s.getD (n / 2) 0
  else (s.getD (n / 2 - 1) 0 + s.getD (n / 2) 0) / 2

/-- get_blocks, adaptive gaps: median absolute x/y deltas of consecutive
line centers (0.1 when there are fewer than two lines), times the
tolerance factor 1.5. -/
def get_blocks_gaps (lines : List PdfLine) : ℚ × ℚ :=
  let pairs := lines.zip lines.tail
  let x_diffs := pairs.map fun p => |(p.2.bbox.center).1 - (p.1.bbox.center).1|
  let y_diffs := pairs.map fun p => |(p.2.bbox.center).2 - (p.1.bbox.center).2|
  let median_x_gap := if x_diffs = [] then 1/10 else median x_diffs
  let median_y_gap := if y_diffs = [] then 1/10 else median y_diffs
  (median_x_gap * (3/2), median_y_gap * (3/2))

/-- Phase-1 loop body of get_blocks: merge the line into the last open
block when any of the five merge conditions holds, otherwise start a new
block. -/
def get_blocks_step (allowed_x_gap allowed_y_gap : ℚ)
    (blocks : List PdfBlock) (line : PdfLine) : List PdfBlock :=
  match blocks.getLast? with
  | none => [⟨[line], line.bbox, line.rotation⟩]
  | some current_block =>
    let last_line := current_block.lines.getLastD dfltLine
    let last_bbox := last_line.bbox
    let current_bbox := line.bbox
    let x_diff := |(current_bbox.center).1 - (last_bbox.center).1|
    let y_diff := |(current_bbox.center).2 - (last_bbox.center).2|
    let merged := blocks.dropLast ++
      [⟨current_block.lines ++ [line], current_block.bbox.merge line.bbox,
        current_block.rotation⟩]
    if x_diff ≤ allowed_x_gap ∧ y_diff ≤ allowed_y_gap then merged
    else if current_block.lines.length = 1 ∧ last_bbox.x_start > line.bbox.x_start ∧
        y_diff ≤ allowed_y_gap then merged
    else if last_bbox.x_end > line.bbox.x_end ∧ y_diff ≤ allowed_y_gap then merged
    else if y_diff < allowed_y_gap * (1/5) ∧ last_bbox.x_end > line.bbox.x_start then
      merged
    else if current_block.bbox.intersection_pct line.bbox > 0 then merged
    else blocks ++ [⟨[line], line.bbox, line.rotation⟩]

/-- Phase-2 loop body of get_blocks: merge adjacent blocks whose bboxes
intersect at all. -/
def get_blocks_merge_step (acc : List PdfBlock) (curr : PdfBlock) :
    List PdfBlock :=
  match acc.getLast? with
  | none => acc ++ [curr]
  | some prev =>
    if prev.bbox.intersection_pct curr.bbox > 0 then
      acc.dropLast ++
        [⟨prev.lines ++ curr.lines, prev.bbox.merge curr.bbox, prev.rotation⟩]
    else acc ++ [curr]

/-- pdf.pages.get_blocks: adaptive gaps, phase-1 fold, phase-2 merge
pass. -/
def get_blocks (lines : List PdfLine) : List PdfBlock :=
  match lines with
  | [] => []
  | _ :: _ =>
    let gaps := get_blocks_gaps lines
    let blocks := lines.foldl (get_blocks_step gaps.1 gaps.2) []
    match blocks with
    | [] => []
    | b :: rest => rest.foldl get_blocks_merge_step [b]

/-! ### CharacterDeduplicator (pdf/chars.py deduplicate_chars) -/

/-- Python str.endswith with a single-character suffix. -/
def endsWith1 (t : List Char) (c : Char) : Bool :=
  t.getLast? = some c

/-- word_break of deduplicate_chars: a fresh one-glyph word; the word
rotation is int(char.rotation). -/
def new_word (ch : PdfChar) : PdfSpan :=
  ⟨ch.bbox, ch.char, ch.font, [ch], ch.char_idx, ch.char_idx,
   (pyInt ch.rotation : ℚ), [], false, false⟩

/-- Word-segmentation loop body of deduplicate_chars: break on a trailing
line break / space / soft hyphen, on any change of font name, flags, size
or weight (color deliberately excluded), or on a rotation change;
otherwise extend the last word. -/
def deduplicate_word_step (words : List PdfSpan) (ch : PdfChar) :
    List PdfSpan :=
  match words.getLast? with
  | none => words ++ [new_word ch]
  | some word =>
    if endsWith1 word.text '\n' ∨ endsWith1 word.text ' ' ∨
        endsWith1 word.text '\x02' then
      words ++ [new_word ch]
    else if ch.font.name ≠ word.font.name ∨ ch.font.flags ≠ word.font.flags ∨
        ch.font.size ≠ word.font.size ∨ ch.font.weight ≠ word.font.weight then
      words ++ [new_word ch]
    else if ch.rotation ≠ word.rotation then
      words ++ [new_word ch]
    else
      words.dropLast ++ [{word with
        text := word.text ++ ch.char,
        char_end_idx := ch.char_idx,
        bbox := word.bbox.merge ch.bbox,
        chars := word.chars ++ [ch]}]

/-- The provisional words deduplicate_chars builds from a glyph stream. -/
def build_words (chars : List PdfChar) : List PdfSpan :=
  chars.foldl deduplicate_word_step []

/-- The deduplication key of deduplicate_chars: per-coordinate rounded
bbox, text, rotation, and font name/flags/size/weight. -/
structure WordKey where
  bbox_rounded : ℤ × ℤ × ℤ × ℤ
  text : List Char
  rotation : ℚ
  name : List Char
  flags : ℤ
  size : ℚ
  weight : ℤ
  deriving DecidableEq, Repr

/-- The key of one word. -/
def word_key (w : PdfSpan) : WordKey :=
  ⟨(pyRound w.bbox.x_start, pyRound w.bbox.y_start,
    pyRound w.bbox.x_end, pyRound w.bbox.y_end),
   w.text, w.rotation, w.font.name, w.font.flags, w.font.size, w.font.weight⟩

/-- Deduplication loop body: state is (seen keys, kept words); a word
whose key was already seen is dropped. -/
def deduplicate_dedup_step (acc : List WordKey × List PdfSpan)
    (w : PdfSpan) : List WordKey × List PdfSpan :=
  let key := word_key w
  if key ∈ acc.1 then acc else (acc.1 ++ [key], acc.2 ++ [w])

/-- pdf.chars.deduplicate_chars: segment into words, keep the first word
per key, and hand downstream the concatenated glyphs of the kept words. -/
def deduplicate_chars (chars : List PdfChar) : List PdfChar :=
  let words := build_words chars
  let deduped := (words.foldl deduplicate_dedup_step ([], [])).2
  deduped.flatMap fun w => w.chars

/-- Reference characterization of first-wins deduplication: keep the head
and recursively drop every later word with the same key. -/
def first_occurrences : List PdfSpan → List PdfSpan
  | [] => []
  | w :: ws =>
    w :: first_occurrences (ws.filter fun v => decide (word_key v ≠ word_key w))
termination_by l => l.length
decreasing_by
  simp only [List.length_cons]
  exact Nat.lt_succ_of_le (List.length_filter_le _ _)

/-! ### ScriptClassifier (pdf/pages.py assign_scripts) -/

/-- The character-classification facts assign_scripts takes from Python's
unicodedata / str methods: per-character alphanumeric and digit tests and
the Sm (math symbol) general-category test. The classifier's behaviour is
verified for every such oracle. -/
structure TextInfo where
  isAlnumChar : Char → Bool
  isDigitChar : Char → Bool
  isMathSymbolChar : Char → Bool

/-- Python str.isalnum: nonempty and every character alphanumeric. -/
def pyIsAlnum (t : TextInfo) (s : List Char) : Bool :=
  !s.isEmpty && s.all t.isAlnumChar

/-- Python str.isdigit: nonempty and every character a digit. -/
def pyIsDigit (t : TextInfo) (s : List Char) : Bool :=
  !s.isEmpty && s.all t.isDigitChar

/-- pdf.pages.is_math_symbol: a single character of general category Sm. -/
def is_math_symbol (t : TextInfo) (s : List Char) : Bool :=
  match s with
  | [c] => t.isMathSymbolChar c
  | _ => false

/-- Per-span body of the assign_scripts loop, reading neighbours from the
original span list of the line (the loop mutates only the boolean flags,
which no condition reads). -/
def assign_scripts_span (t : TextInfo)
    (height_threshold line_distance_threshold : ℚ) (line_bbox : Bbox)
    (spans : List PdfSpan) (i : ℕ) (span : PdfSpan) : PdfSpan :=
  let prev_span := if i = 0 then none else spans.get? (i - 1)
  let is_first : Bool := decide (i = 0) ||
    (match prev_span with
     | none => true
     | some p => decide (pyStrip p.text = []))
  let is_last : Bool := decide (i = spans.length - 1) ||
    (match spans.get? (i + 1) with
     | none => true
     | some nx => decide (pyStrip nx.text = []))
  let span_height := span.bbox.height
  let span_top := span.bbox.y_start
  let span_bottom := span.bbox.y_end
  let line_fullheight : Bool :=
    decide (span_height / max 1 line_bbox.height ≤ height_threshold)
  let next_fullheight : Bool := is_last ||
    (match spans.get? (i + 1) with
     | none => true
     | some nx => decide (span_height / max 1 nx.bbox.height ≤ height_threshold))
  let prev_fullheight : Bool := is_first ||
    (match prev_span with
     | none => true
     | some p => decide (span_height / max 1 p.bbox.height ≤ height_threshold))
  let above : Bool := spans.enum.any fun pj =>
    decide (pj.1 ≠ i) && decide (span_top <
      pj.2.bbox.y_start - pj.2.bbox.height * line_distance_threshold)
  let prev_above : Bool := is_first ||
    (match prev_span with
     | none => true
     | some p => decide (span_top < p.bbox.y_start))
  let next_above : Bool := is_last ||
    (match spans.get? (i + 1) with
     | none => true
     | some nx => decide (span_top < nx.bbox.y_start))
  let below : Bool := spans.enum.any fun pj =>
    decide (pj.1 ≠ i) && decide (span_bottom >
      pj.2.bbox.y_end + pj.2.bbox.height * line_distance_threshold)
  let prev_below : Bool := is_first ||
    (match prev_span with
     | none => true
     | some p => decide (span_bottom > p.bbox.y_end))
  let next_below : Bool := is_last ||
    (match spans.get? (i + 1) with
     | none => true
     | some nx => decide (span_bottom > nx.bbox.y_end))
  let span_text := pyStrip span.text
  let span_text_okay : Bool :=
    (decide (span_text.length = 1) || pyIsDigit t span_text) &&
    (pyIsAlnum t span_text || is_math_symbol t span_text)
  if (prev_fullheight || next_fullheight) && (prev_above || next_above) &&
      above && line_fullheight && span_text_okay then
    {span with superscript := true}
  else if (prev_fullheight || next_fullheight) && (prev_below || next_below) &&
      below && line_fullheight && span_text_okay then
    {span with subscript := true}
  else span

/-- One line of pdf.pages.assign_scripts: lines with fewer than two spans
or with bbox height exceeding bbox width are skipped unchanged. -/
def assign_scripts_line (t : TextInfo)
    (height_threshold line_distance_threshold : ℚ) (line : PdfLine) :
    PdfLine :=
  if line.spans.length < 2 then line
  else if line.bbox.height > line.bbox.width then line
  else {line with spans := line.spans.enum.map (fun p =>
    assign_scripts_span t height_threshold line_distance_threshold
      line.bbox line.spans p.1 p.2)}

/-- pdf.pages.assign_scripts over the lines of a page. -/
def assign_scripts (t : TextInfo)
    (height_threshold line_distance_threshold : ℚ) (lines : List PdfLine) :
    List PdfLine :=
  lines.map (assign_scripts_line t height_threshold line_distance_threshold)

/-! ### TextNormalizer (postprocessing.postprocess_text)

Python strings are sequences of raw code points that may contain UTF-16
surrogates, which Lean's Char excludes, so this part of the pipeline is
modelled on lists of natural-number code points. -/

/-- A Python string as raw code points. -/
abbrev PyStr := List ℕ

/-- A UTF-16 surrogate code point. -/
def isSurrogate (c : ℕ) : Prop := 0xD800 ≤ c ∧ c ≤ 0xDFFF

instance (c : ℕ) : Decidable (isSurrogate c) := by
  unfold isSurrogate; infer_instance

/-- postprocessing.REPLACEMENTS: the single entry replaces CRLF by LF,
scanning left to right without overlap (Python str.replace). -/
def replace_crlf : PyStr → PyStr
  | [] => []
  | [c] => [c]
  | c :: d :: rest =>
    if c = 13 ∧ d = 10 then 10 :: replace_crlf rest
    else c :: replace_crlf (d :: rest)

/-- pdf.utils.SPACES as code points. -/
def SPACES_codes : PyStr := [0x20, 0xFFFE, 0xFEFF, 0xA0]

/-- pdf.utils.LINE_BREAKS as code points. -/
def LINE_BREAKS_codes : PyStr := [0x0A, 0x0D, 0x0A]

/-- pdf.utils.TABS as code points. -/
def TABS_codes : PyStr := [0x09, 0x09, 0x09]

/-- pdf.utils.WHITESPACE_CHARS as code points. -/
def WHITESPACE_CHARS_codes : PyStr := [0x0A, 0x0D, 0x0C, 0x09, 0x20]

/-- Python str.replace where pattern and replacement are one character. -/
def replace_all_char (s : PyStr) (target repl : ℕ) : PyStr :=
  s.map fun c => if c = target then repl else c

/-- postprocessing.replace_special_chars: canonicalize the alternate
space, line break and tab characters. -/
def replace_special_chars (s : PyStr) : PyStr :=
  let s1 := SPACES_codes.foldl (fun acc item => replace_all_char acc item 0x20) s
  let s2 := LINE_BREAKS_codes.foldl
    (fun acc item => replace_all_char acc item 0x0A) s1
  TABS_codes.foldl (fun acc item => replace_all_char acc item 0x09) s2

/-- The while loop of postprocessing.fix_unicode_surrogate_pairs: a high
surrogate followed by a low surrogate recombines via
0x10000 + ((high - 0xD800) << 10) + (low - 0xDC00) (chr of which never
fails, so the dead ValueError branch is dropped); any remaining surrogate
becomes U+FFFD; other characters pass through. -/
def fix_surrogates_loop : PyStr → PyStr
  | [] => []
  | [c] => if isSurrogate c then [0xFFFD] else [c]
  | c :: l :: rest =>
    if 0xD800 ≤ c ∧ c ≤ 0xDBFF ∧ 0xDC00 ≤ l ∧ l ≤ 0xDFFF then
      (0x10000 + (c - 0xD800) * 1024 + (l - 0xDC00)) ::
        fix_surrogates_loop rest
    else if isSurrogate c then 0xFFFD :: fix_surrogates_loop (l :: rest)
    else c :: fix_surrogates_loop (l :: rest)

/-- postprocessing.fix_unicode_surrogate_pairs: empty input maps to the
empty string; a string whose utf-8 encoding succeeds (equivalently, one
with no surrogate code point) is returned unchanged; otherwise the repair
loop runs. -/
def fix_unicode_surrogate_pairs (s : PyStr) : PyStr :=
  if s = [] then []
  else if ∀ c ∈ s, ¬ isSurrogate c then s
  else fix_surrogates_loop s

/-- postprocessing.replace_control_chars, parametrized by the
unicodedata fact "the general category of this code point starts with C":
keep a character iff it is not category C, or is the soft-hyphen marker,
or is one of the whitespace characters. -/
def replace_control_chars (isCategoryC : ℕ → Bool) (s : PyStr) : PyStr :=
  s.filter fun c =>
    !isCategoryC c || decide (c = 2) || decide (c ∈ WHITESPACE_CHARS_codes)

/-- postprocessing.LIGATURES as code points, in the source dict order. -/
def LIGATURES_codes : List (ℕ × PyStr) :=
  [(0xFB00, [0x66, 0x66]),
   (0xFB03, [0x66, 0x66, 0x69]),
   (0xFB04, [0x66, 0x66, 0x6C]),
   (0xFB01, [0x66, 0x69]),
   (0xFB02, [0x66, 0x6C]),
   (0xFB06, [0x73, 0x74]),
   (0xFB05, [0x73, 0x74])]

/-- Python str.replace with a one-character pattern and a multi-character
replacement. -/
def replace_char_with (s : PyStr) (target : ℕ) (repl : PyStr) : PyStr :=
  s.flatMap fun c => if c = target then repl else [c]

/-- postprocessing.replace_ligatures. -/
def replace_ligatures (s : PyStr) : PyStr :=
  LIGATURES_codes.foldl (fun acc p => replace_char_with acc p.1 p.2) s

/-- postprocessing.postprocess_text: CRLF replacement, special-character
canonicalization, surrogate repair, control-character stripping, ligature
expansion. -/
def postprocess_text (isCategoryC : ℕ → Bool) (s : PyStr) : PyStr :=
  replace_ligatures (replace_control_chars isCategoryC
    (fix_unicode_surrogate_pairs (replace_special_chars (replace_crlf s))))

/-! ## Theorems -/

/-- Python single-character replace is the pointwise expansion of each
occurrence of the pattern character. -/
theorem replace_char_eq_flatMap (t : List Char) (c : Char) (r : List Char) :
    replace_char t c r =
      t.flatMap fun x => if x = c then r else [x] := by
  induction t with
  | nil => rfl
  | cons x xs ih =>
    by_cases hx : x = c <;> simp [replace_char, hx, ih]

/-- Counterexample to claim C1 as stated: join mode on "exam\x02ple "
does not produce a trailing newline, because the loop runs over
range(len(text) - 1) and the trailing space is the last character, so the
space branch that would emit the newline never fires. -/
theorem handle_hyphens_join_example_no_newline :
    handle_hyphens ['e', 'x', 'a', 'm', '\x02', 'p', 'l', 'e', ' '] false ≠
      ['e', 'x', 'a', 'm', 'p', 'l', 'e', '\n'] := by
  decide

/-- Claim C1 (amended): in join mode, handle_hyphens on the string
"exam\x02ple " (soft-hyphen marker mid-word, trailing space) yields
"example" with no internal marker and no trailing newline; and in keep
mode handle_hyphens replaces every occurrence of the soft-hyphen marker
by the two characters "-\n". -/
theorem handle_hyphens_keep_and_join_example :
    handle_hyphens ['e', 'x', 'a', 'm', '\x02', 'p', 'l', 'e', ' '] false =
      ['e', 'x', 'a', 'm', 'p', 'l', 'e'] ∧
    ∀ text : List Char, handle_hyphens text true =
      text.flatMap fun x => if x = HYPHEN_CHAR then ['-', '\n'] else [x] := by
  constructor
  · decide
  · intro text
    simpa [handle_hyphens] using replace_char_eq_flatMap text HYPHEN_CHAR ['-', '\n']

/-- With no soft-hyphen marker in sight and found_hyphen clear, the
join-mode loop of handle_hyphens copies every character through. -/
theorem handle_hyphens_fold_no_hyphen (l : List Char) (acc : List Char)
    (h : ∀ c ∈ l, c ≠ HYPHEN_CHAR) :
    l.foldl handle_hyphens_step (acc, false) = (acc ++ l, false) := by
  induction l generalizing acc with
  | nil => simp
  | cons x xs ih =>
    have hx : x ≠ HYPHEN_CHAR := h x (by simp)
    have step : handle_hyphens_step (acc, false) x = (acc ++ [x], false) := by
      simp [handle_hyphens_step, hx]
    rw [List.foldl_cons, step, ih (acc ++ [x]) fun c hc => h c (by simp [hc])]
    simp

/-- Claim C2: join-mode handle_hyphens on any non-empty string without the
soft-hyphen marker returns the input with its final character removed (the
loop runs over range(len(text) - 1) and never looks at the last
character). -/
theorem handle_hyphens_join_drops_last_char (t : List Char) (h0 : t ≠ [])
    (h1 : HYPHEN_CHAR ∉ t) :
    handle_hyphens t false = t.dropLast := by
  have hlen : ¬ t.length = 0 := by
    simpa [List.length_eq_zero] using h0
  have hsub : ∀ c ∈ t.dropLast, c ≠ HYPHEN_CHAR := by
    intro c hc hcontra
    exact h1 (hcontra ▸ (List.dropLast_sublist t).subset hc)
  simp only [handle_hyphens, Bool.false_eq_true, if_false, hlen,
    handle_hyphens_fold_no_hyphen t.dropLast [] hsub, List.nil_append]

/-- Witness for C2 at the concrete input "ab". -/
theorem handle_hyphens_join_drops_last_char_witness :
    handle_hyphens ['a', 'b'] false = ['a'] := by
  have h := handle_hyphens_join_drops_last_char ['a', 'b'] (by decide) (by decide)
  simpa using h

/-- Claim C3 (failing-input evaluation): dictionary_output rebuilds the
page bbox of a 90-degree-rotated 612x792 page as [612, 792, 0, 0], which
violates the x_start ≤ x_end and y_start ≤ y_end ordering invariant. -/
theorem dict_output_rotated_page_bbox_violates_ordering :
    dictionary_output_rotated_page_bbox ⟨0, 0, 612, 792⟩ = ⟨612, 792, 0, 0⟩ ∧
    ¬((dictionary_output_rotated_page_bbox ⟨0, 0, 612, 792⟩).x_start ≤
        (dictionary_output_rotated_page_bbox ⟨0, 0, 612, 792⟩).x_end) ∧
    ¬((dictionary_output_rotated_page_bbox ⟨0, 0, 612, 792⟩).y_start ≤
        (dictionary_output_rotated_page_bbox ⟨0, 0, 612, 792⟩).y_end) := by
  refine ⟨rfl, by norm_num [dictionary_output_rotated_page_bbox], by
    norm_num [dictionary_output_rotated_page_bbox]⟩

/-- A 90-degree rotation of a box whose coordinates are ordered needs no
re-normalization: the corner formulas already produce ordered corners. -/
theorem rotate90_sorted (b : Bbox) (W H : ℚ) (hx : b.x_start ≤ b.x_end)
    (hy : b.y_start ≤ b.y_end) :
    b.rotate W H 90 = some ⟨H - b.y_end, b.x_start, H - b.y_start, b.x_end⟩ := by
  obtain ⟨x1, y1, x2, y2⟩ := b
  simp only [Bbox.x_start, Bbox.x_end, Bbox.y_start, Bbox.y_end] at hx hy
  simp only [Bbox.rotate]
  rw [if_neg (by decide)]
  simp only [if_true, Option.some.injEq, Bbox.mk.injEq]
  refine ⟨min_eq_left (by linarith), min_eq_left hx,
    max_eq_right (by linarith), max_eq_right hx⟩

/-- Claim C9: rotate with angle 0 returns a box with the same four
coordinates, and four successive 90-degree rotations with the page
dimensions swapped at each step return any ordered box unchanged. -/
theorem rotate_zero_id_and_four_quarter_turns :
    (∀ (b : Bbox) (W H : ℚ), b.rotate W H 0 = some b) ∧
    (∀ (b : Bbox) (W H : ℚ), b.x_start ≤ b.x_end → b.y_start ≤ b.y_end →
      ((b.rotate W H 90).bind fun r1 =>
        (r1.rotate H W 90).bind fun r2 =>
          (r2.rotate W H 90).bind fun r3 => r3.rotate H W 90) = some b) := by
  constructor
  · intro b W H
    rfl
  · intro b W H hx hy
    obtain ⟨x1, y1, x2, y2⟩ := b
    simp only [Bbox.x_start, Bbox.x_end, Bbox.y_start, Bbox.y_end] at hx hy
    rw [rotate90_sorted ⟨x1, y1, x2, y2⟩ W H hx hy]
    simp only [Option.some_bind]
    rw [rotate90_sorted ⟨H - y2, x1, H - y1, x2⟩ H W (by dsimp; linarith)
      (by dsimp; linarith)]
    simp only [Option.some_bind]
    rw [rotate90_sorted ⟨W - x2, H - y2, W - x1, H - y1⟩ W H
      (by dsimp; linarith) (by dsimp; linarith)]
    simp only [Option.some_bind]
    rw [rotate90_sorted ⟨H - (H - y1), W - x2, H - (H - y2), W - x1⟩ H W
      (by dsimp; linarith) (by dsimp; linarith)]
    simp only [Option.some.injEq, Bbox.mk.injEq]
    refine ⟨by ring, by ring, by ring, by ring⟩

/-- Witness for C9 at a concrete ordered box and page size 10x20. -/
theorem rotate_zero_id_and_four_quarter_turns_witness :
    (((Bbox.mk 1 2 3 4).rotate 10 20 90).bind fun r1 =>
      (r1.rotate 20 10 90).bind fun r2 =>
        (r2.rotate 10 20 90).bind fun r3 => r3.rotate 20 10 90) =
      some (Bbox.mk 1 2 3 4) :=
  rotate_zero_id_and_four_quarter_turns.2 ⟨1, 2, 3, 4⟩ 10 20
    (by norm_num) (by norm_num)

/-- Claim C10: merge(a,b) contains both a and b, is the minimal rectangle
doing so, and merge is commutative. -/
theorem merge_contains_minimal_commutative (a b : Bbox) :
    (a.inside (a.merge b) ∧ b.inside (a.merge b)) ∧
    (∀ c : Bbox, a.inside c → b.inside c → (a.merge b).inside c) ∧
    a.merge b = b.merge a := by
  refine ⟨⟨?_, ?_⟩, ?_, ?_⟩
  · exact ⟨min_le_left _ _, le_max_left _ _, min_le_left _ _, le_max_left _ _⟩
  · exact ⟨min_le_right _ _, le_max_right _ _, min_le_right _ _, le_max_right _ _⟩
  · rintro c ⟨ha1, ha2, ha3, ha4⟩ ⟨hb1, hb2, hb3, hb4⟩
    exact ⟨le_min ha1 hb1, max_le ha2 hb2, le_min ha3 hb3, max_le ha4 hb4⟩
  · simp [Bbox.merge, min_comm, max_comm]

/-- The first loop of get_image_bboxes is the pair of filters it reads
as: text bboxes come from the objects that are neither of type 0/5 nor of
type 2/3/4, and the always-kept non-text objects are exactly those of
type 2/3/4, both in stream order. -/
theorem get_image_bboxes_first_loop_eq (objs : List PageObj)
    (acc : List Bbox × List PageObj) :
    objs.foldl get_image_bboxes_first_loop_step acc =
      (acc.1 ++ (objs.filter fun o => !(decide (o.type = 0 ∨ o.type = 5)) &&
          !(decide (o.type = 2 ∨ o.type = 3 ∨ o.type = 4))).map PageObj.bbox,
       acc.2 ++ objs.filter fun o =>
          decide (o.type = 2 ∨ o.type = 3 ∨ o.type = 4)) := by
  induction objs generalizing acc with
  | nil => simp
  | cons o rest ih =>
    rw [List.foldl_cons, ih]
    by_cases h05 : o.type = 0 ∨ o.type = 5
    · rcases h05 with h | h <;>
        simp [get_image_bboxes_first_loop_step, h, List.filter_cons,
          List.append_assoc]
    · by_cases h234 : o.type = 2 ∨ o.type = 3 ∨ o.type = 4
      · rcases h234 with h | h | h <;>
          simp [get_image_bboxes_first_loop_step, h, List.filter_cons,
            List.append_assoc]
      · push_neg at h05 h234
        simp [get_image_bboxes_first_loop_step, h05.1, h05.2, h234.1,
          h234.2.1, h234.2.2, List.filter_cons, List.append_assoc]

/-- Counterexample to claim C4 as stated: a shading-tagged object (type 4)
whose device bbox coincides with a text object's bbox intersects that text
bbox with positive area and is nevertheless kept as a non-text region. -/
theorem get_image_bboxes_shading_kept_despite_text_overlap :
    get_image_bboxes_selection
        [⟨1, ⟨0, 0, 10, 10⟩⟩, ⟨4, ⟨0, 0, 10, 10⟩⟩] = [⟨0, 0, 10, 10⟩] ∧
    (0 : ℚ) < Bbox.intersection_area ⟨0, 0, 10, 10⟩ ⟨0, 0, 10, 10⟩ := by
  constructor
  · simp only [get_image_bboxes_selection, get_image_bboxes_first_loop_step,
      List.foldl_cons, List.foldl_nil, List.filter_cons, List.filter_nil,
      Bbox.intersection_area, Bbox.overlap_x, Bbox.overlap_y]
    norm_num
  · simp only [Bbox.intersection_area, Bbox.overlap_x, Bbox.overlap_y]
    norm_num

/-- Claim C4 (amended): objects tagged path, image or shading (types
2/3/4) are always kept as non-text regions, while objects of type form or
unknown (5/0) are kept only if their device bbox intersects no
text-tagged object's device bbox, all prior to the page-bbox clipping
step. -/
theorem get_image_bboxes_selection_characterization (objects : List PageObj) :
    get_image_bboxes_selection objects =
      (objects.filter fun o =>
        decide (o.type = 2 ∨ o.type = 3 ∨ o.type = 4)).map PageObj.bbox ++
      (objects.filter fun o => decide (o.type = 0 ∨ o.type = 5) &&
        ! (((objects.filter fun t => !(decide (t.type = 0 ∨ t.type = 5)) &&
              !(decide (t.type = 2 ∨ t.type = 3 ∨ t.type = 4))).map
             PageObj.bbox).any fun tb =>
            decide ((0 : ℚ) < o.bbox.intersection_area tb))).map PageObj.bbox := by
  unfold get_image_bboxes_selection
  rw [get_image_bboxes_first_loop_eq]
  simp only [List.nil_append, List.map_append]

/-- Counterexample to claim C5 as stated: with page-adaptive gaps
(15/2, 15/4) computed from three concrete lines, the open block holds
exactly the line [0,0,1,1], the candidate line [10,0,11,1] is indented
further right (x_start 10 > 0) and has y-center difference 0 ≤ 15/4, yet
the phase-1 step opens a new block instead of merging: the code's indent
exception requires the FIRST line to start further right than the
candidate, not the reverse. -/
theorem get_blocks_first_indent_exception_is_reversed :
    get_blocks_gaps [⟨[], ⟨0, 0, 1, 1⟩, 0⟩, ⟨[], ⟨10, 0, 11, 1⟩, 0⟩,
        ⟨[], ⟨10, 5, 11, 6⟩, 0⟩] = (15/2, 15/4) ∧
    ((⟨10, 0, 11, 1⟩ : Bbox).x_start > (⟨0, 0, 1, 1⟩ : Bbox).x_start) ∧
    |((⟨10, 0, 11, 1⟩ : Bbox).center).2 - ((⟨0, 0, 1, 1⟩ : Bbox).center).2| ≤
      15/4 ∧
    get_blocks_step (15/2) (15/4)
        [⟨[⟨[], ⟨0, 0, 1, 1⟩, 0⟩], ⟨0, 0, 1, 1⟩, 0⟩] ⟨[], ⟨10, 0, 11, 1⟩, 0⟩ =
      [⟨[⟨[], ⟨0, 0, 1, 1⟩, 0⟩], ⟨0, 0, 1, 1⟩, 0⟩,
       ⟨[⟨[], ⟨10, 0, 11, 1⟩, 0⟩], ⟨10, 0, 11, 1⟩, 0⟩] := by
  refine ⟨?_, by norm_num, by norm_num [Bbox.center], ?_⟩
  · simp only [get_blocks_gaps, List.zip_cons_cons, List.tail_cons,
      List.map_cons, List.map_nil, Bbox.center, median, sortRats,
      insertSorted, List.foldr_cons, List.foldr_nil]
    norm_num
    exact ⟨by simp, by simp⟩
  · simp only [get_blocks_step, List.getLast?_singleton, List.getLastD_cons,
      List.getLastD_nil, Bbox.center, Bbox.intersection_pct, Bbox.area,
      Bbox.width, Bbox.height, Bbox.intersection_area, Bbox.overlap_x,
      Bbox.overlap_y]
    norm_num

/-- Claim C5 (amended): in block assembly phase 1, when the open block
holds exactly one line, that FIRST line is indented further right than
the candidate (first.x_start > candidate.x_start), and the absolute
y-center difference is within allowed_y_gap, the candidate is merged
into the open block. -/
theorem get_blocks_step_first_line_indent (ax ay : ℚ) (bs : List PdfBlock)
    (b : PdfBlock) (l0 line : PdfLine) (hb : b.lines = [l0])
    (hind : l0.bbox.x_start > line.bbox.x_start)
    (hy : |(line.bbox.center).2 - (l0.bbox.center).2| ≤ ay) :
    get_blocks_step ax ay (bs ++ [b]) line =
      bs ++ [⟨b.lines ++ [line], b.bbox.merge line.bbox, b.rotation⟩] := by
  unfold get_blocks_step
  rw [List.getLast?_concat]
  simp only [hb, List.getLastD_cons, List.getLastD_nil, List.dropLast_concat,
    List.length_cons, List.length_nil]
  split_ifs with h1 h2 h3 h4 h5 <;> try rfl
  exact absurd ⟨trivial, hind, hy⟩ h2

/-- Witness for the amended C5 at concrete lines: the block holds exactly
the line with bbox [5,0,6,1]; the candidate [0,0,1,1] starts further left
and is within the y gap, so the step merges it. -/
theorem get_blocks_step_first_line_indent_witness :
    get_blocks_step 0 1 [⟨[⟨[], ⟨5, 0, 6, 1⟩, 0⟩], ⟨5, 0, 6, 1⟩, 0⟩]
        ⟨[], ⟨0, 0, 1, 1⟩, 0⟩ =
      [⟨[⟨[], ⟨5, 0, 6, 1⟩, 0⟩, ⟨[], ⟨0, 0, 1, 1⟩, 0⟩],
        Bbox.merge ⟨5, 0, 6, 1⟩ ⟨0, 0, 1, 1⟩, 0⟩] := by
  have h := get_blocks_step_first_line_indent 0 1 []
    ⟨[⟨[], ⟨5, 0, 6, 1⟩, 0⟩], ⟨5, 0, 6, 1⟩, 0⟩ ⟨[], ⟨5, 0, 6, 1⟩, 0⟩
    ⟨[], ⟨0, 0, 1, 1⟩, 0⟩ rfl (by norm_num) (by norm_num [Bbox.center])
  simpa using h

/-- The seen-set fold of deduplicate_chars keeps exactly the first word
per key among the words whose key is not already in the seen set, in
stream order. -/
theorem dedup_foldl_eq_first_occurrences (ws : List PdfSpan)
    (seen : List WordKey) (kept : List PdfSpan) :
    (ws.foldl deduplicate_dedup_step (seen, kept)).2 =
      kept ++ first_occurrences
        (ws.filter fun w => decide (word_key w ∉ seen)) := by
  induction ws generalizing seen kept with
  | nil => simp [first_occurrences]
  | cons w rest ih =>
    rw [List.foldl_cons]
    by_cases h : word_key w ∈ seen
    · have hstep : deduplicate_dedup_step (seen, kept) w = (seen, kept) := by
        simp [deduplicate_dedup_step, h]
      rw [hstep, ih]
      have hfil : List.filter (fun v => decide (word_key v ∉ seen)) (w :: rest) =
          rest.filter fun v => decide (word_key v ∉ seen) := by
        simp [List.filter_cons, h]
      rw [hfil]
    · have hstep : deduplicate_dedup_step (seen, kept) w =
          (seen ++ [word_key w], kept ++ [w]) := by
        simp [deduplicate_dedup_step, h]
      rw [hstep, ih]
      have hpred : ∀ v ∈ rest,
          (decide (word_key v ∉ seen ++ [word_key w])) =
            (decide (word_key v ≠ word_key w) &&
              decide (word_key v ∉ seen)) := by
        intro v _
        by_cases h1 : word_key v ∈ seen <;>
          by_cases h2 : word_key v = word_key w <;> simp [h1, h2]
      rw [List.filter_congr hpred]
      have hfil : List.filter (fun v => decide (word_key v ∉ seen)) (w :: rest) =
          w :: (rest.filter fun v => decide (word_key v ∉ seen)) := by
        simp [List.filter_cons, h]
      rw [hfil, first_occurrences, List.filter_filter, List.append_assoc,
        List.singleton_append]

/-- Claim C6: deduplicate_chars keeps, for each key (integer-rounded
bbox, text, rotation, font name/flags/size/weight), only the first word
in stream order, dropping every later word with an already-seen key
together with all its glyphs; in particular the identical word fed twice
(here a single-space word, whose trailing space forces a word break,
repeated with the same bbox, text, rotation and font) yields exactly one
occurrence, at the first-seen position. -/
theorem deduplicate_chars_first_wins :
    (∀ chars : List PdfChar,
      deduplicate_chars chars =
        (first_occurrences (build_words chars)).flatMap fun w => w.chars) ∧
    deduplicate_chars
        [⟨⟨0, 0, 1, 1⟩, [' '], 0, ⟨[], 0, 1, 0, []⟩, 0⟩,
         ⟨⟨0, 0, 1, 1⟩, [' '], 0, ⟨[], 0, 1, 0, []⟩, 1⟩] =
      [⟨⟨0, 0, 1, 1⟩, [' '], 0, ⟨[], 0, 1, 0, []⟩, 0⟩] := by
  constructor
  · intro chars
    simp only [deduplicate_chars]
    rw [dedup_foldl_eq_first_occurrences]
    rw [List.filter_eq_self.mpr (by intro a _; simp)]
    rfl
  · norm_num [deduplicate_chars, build_words, deduplicate_word_step,
      new_word, deduplicate_dedup_step, word_key, endsWith1, pyInt, pyRound,
      Bbox.merge]

/-- A map whose function fixes every element of the list is the
identity on that list. -/
theorem list_map_eq_self {α : Type} (f : α → α) (l : List α)
    (h : ∀ x ∈ l, f x = x) : l.map f = l := by
  induction l with
  | nil => rfl
  | cons x xs ih =>
    simp only [List.map_cons, h x (by simp)]
    rw [ih fun y hy => h y (by simp [hy])]

/-- assign_scripts skips a line with fewer than two spans or with bbox
height exceeding bbox width. -/
theorem assign_scripts_line_skip (t : TextInfo) (ht ldt : ℚ)
    (line : PdfLine)
    (h : line.spans.length < 2 ∨ line.bbox.height > line.bbox.width) :
    assign_scripts_line t ht ldt line = line := by
  rcases h with h | h <;> simp [assign_scripts_line, h]

/-- Claim C7: script classification leaves every line with fewer than two
spans or with bbox height exceeding width unchanged (so false flags stay
false); and on any processed span the superscript branch is evaluated
first, so a span whose flags start false is never marked both superscript
and subscript. -/
theorem assign_scripts_skip_and_exclusive (t : TextInfo) (ht ldt : ℚ) :
    (∀ (lines : List PdfLine) (i : ℕ) (line : PdfLine),
      lines.get? i = some line →
      (line.spans.length < 2 ∨ line.bbox.height > line.bbox.width) →
      (assign_scripts t ht ldt lines).get? i = some line) ∧
    (∀ (line : PdfLine) (i : ℕ) (s0 s1 : PdfSpan),
      line.spans.get? i = some s0 →
      (assign_scripts_line t ht ldt line).spans.get? i = some s1 →
      s0.superscript = false → s0.subscript = false →
      ¬(s1.superscript = true ∧ s1.subscript = true)) ∧
    (∀ (line : PdfLine) (i : ℕ) (s0 s1 : PdfSpan),
      line.spans.get? i = some s0 →
      (assign_scripts_line t ht ldt line).spans.get? i = some s1 →
      s0.superscript = false → s1.superscript = true →
      s1.subscript = s0.subscript) := by
  refine ⟨?_, ?_, ?_⟩
  · intro lines i line hget hcond
    unfold assign_scripts
    rw [List.get?_map, hget]
    simp [assign_scripts_line_skip t ht ldt line hcond]
  · intro line i s0 s1 h0 h1 hsup hsub
    by_cases hskip :
        line.spans.length < 2 ∨ line.bbox.height > line.bbox.width
    · rw [assign_scripts_line_skip t ht ldt line hskip, h0] at h1
      obtain rfl := Option.some.inj h1
      rintro ⟨ha, _⟩
      rw [hsup] at ha
      exact Bool.false_ne_true ha
    · push_neg at hskip
      unfold assign_scripts_line at h1
      rw [if_neg (by omega), if_neg (by exact not_lt.mpr hskip.2)] at h1
      simp only [List.get?_map, List.get?_enum, h0, Option.map_some] at h1
      obtain rfl := Option.some.inj h1
      obtain ⟨bb, tx, ft, cs, si, ei, rot, url, sup, sub⟩ := s0
      simp only at hsup hsub
      subst hsup hsub
      simp only [assign_scripts_span]
      split_ifs <;> simp
  · intro line i s0 s1 h0 h1 hsup h1sup
    by_cases hskip :
        line.spans.length < 2 ∨ line.bbox.height > line.bbox.width
    · rw [assign_scripts_line_skip t ht ldt line hskip, h0] at h1
      obtain rfl := Option.some.inj h1
      simp [hsup] at h1sup
    · push_neg at hskip
      unfold assign_scripts_line at h1
      rw [if_neg (by omega), if_neg (by exact not_lt.mpr hskip.2)] at h1
      simp only [List.get?_map, List.get?_enum, h0, Option.map_some] at h1
      obtain rfl := Option.some.inj h1
      obtain ⟨bb, tx, ft, cs, si, ei, rot, url, sup, sub⟩ := s0
      simp only at hsup
      subst hsup
      simp only [assign_scripts_span] at h1sup ⊢
      split_ifs at h1sup ⊢ <;> simp_all

/-- Witness for C7 at concrete inputs: a spanless line is returned
unchanged, and the only span of a single-span (hence skipped) line keeps
both flags false. -/
theorem assign_scripts_skip_and_exclusive_witness :
    (assign_scripts ⟨fun _ => false, fun _ => false, fun _ => false⟩ (4/5)
        (1/10) [⟨[], ⟨0, 0, 1, 1⟩, 0⟩]).get? 0 = some ⟨[], ⟨0, 0, 1, 1⟩, 0⟩ ∧
    ¬((⟨⟨0, 0, 1, 1⟩, [], ⟨[], 0, 1, 0, []⟩, [], 0, 0, 0, [], false, false⟩ :
        PdfSpan).superscript = true ∧
      (⟨⟨0, 0, 1, 1⟩, [], ⟨[], 0, 1, 0, []⟩, [], 0, 0, 0, [], false,
        false⟩ : PdfSpan).subscript = true) := by
  constructor
  · exact (assign_scripts_skip_and_exclusive _ _ _).1
      [⟨[], ⟨0, 0, 1, 1⟩, 0⟩] 0 ⟨[], ⟨0, 0, 1, 1⟩, 0⟩ rfl
      (Or.inl (by simp))
  · exact (assign_scripts_skip_and_exclusive
        ⟨fun _ => false, fun _ => false, fun _ => false⟩ (4/5) (1/10)).2.1
      ⟨[⟨⟨0, 0, 1, 1⟩, [], ⟨[], 0, 1, 0, []⟩, [], 0, 0, 0, [], false,
         false⟩], ⟨0, 0, 1, 1⟩, 0⟩ 0 _ _ rfl
      (by rw [assign_scripts_line_skip _ _ _ _ (Or.inl (by simp))]; rfl)
      rfl rfl

/-- Every code point that CRLF replacement emits is an input code point
or the line feed. -/
theorem replace_crlf_mem : ∀ (s : PyStr), ∀ x ∈ replace_crlf s, x ∈ s ∨ x = 10
  | [] => by simp [replace_crlf]
  | [c] => by simp [replace_crlf]
  | c :: d :: rest => by
    intro x hx
    rw [replace_crlf] at hx
    split_ifs at hx with h
    · rcases List.mem_cons.mp hx with rfl | hm
      · right; rfl
      · rcases replace_crlf_mem rest x hm with hm2 | h10
        · exact Or.inl (by simp [hm2])
        · exact Or.inr h10
    · rcases List.mem_cons.mp hx with rfl | hm
      · exact Or.inl (by simp)
      · rcases replace_crlf_mem (d :: rest) x hm with hm2 | h10
        · exact Or.inl (by simp [List.mem_cons.mp hm2])
        · exact Or.inr h10

/-- Every code point that a single-character replace emits is an input
code point or the replacement. -/
theorem replace_all_char_mem (s : PyStr) (t r : ℕ) :
    ∀ x ∈ replace_all_char s t r, x ∈ s ∨ x = r := by
  intro x hx
  rcases List.mem_map.mp hx with ⟨a, ha, hax⟩
  by_cases hat : a = t
  · right; rw [← hax]; simp [hat]
  · left; rw [← hax]; simpa [hat] using ha

/-- Folding single-character replaces with a fixed replacement only emits
input code points or that replacement. -/
theorem replace_fold_mem (items : PyStr) (r : ℕ) :
    ∀ (s : PyStr),
      ∀ x ∈ items.foldl (fun acc item => replace_all_char acc item r) s,
        x ∈ s ∨ x = r := by
  induction items with
  | nil => intro s x hx; exact Or.inl hx
  | cons i rest ih =>
    intro s x hx
    rw [List.foldl_cons] at hx
    rcases ih (replace_all_char s i r) x hx with hm | hr
    · exact replace_all_char_mem s i r x hm
    · exact Or.inr hr

/-- replace_special_chars only emits input code points or the canonical
space, line feed or tab. -/
theorem replace_special_chars_mem (s : PyStr) :
    ∀ x ∈ replace_special_chars s, x ∈ s ∨ x = 32 ∨ x = 10 ∨ x = 9 := by
  intro x hx
  unfold replace_special_chars at hx
  rcases replace_fold_mem TABS_codes 9 _ x hx with hx2 | h9
  · rcases replace_fold_mem LINE_BREAKS_codes 10 _ x hx2 with hx3 | h10
    · rcases replace_fold_mem SPACES_codes 32 s x hx3 with hx4 | h32
      · exact Or.inl hx4
      · exact Or.inr (Or.inl h32)
    · exact Or.inr (Or.inr (Or.inl h10))
  · exact Or.inr (Or.inr (Or.inr h9))

set_option maxRecDepth 4000 in
/-- The surrogate-repair loop turns any stream of in-range code points
into a stream of in-range non-surrogate code points. -/
theorem fix_surrogates_loop_valid :
    ∀ (s : PyStr), (∀ x ∈ s, x < 1114112) →
      ∀ x ∈ fix_surrogates_loop s, x < 1114112 ∧ ¬ isSurrogate x
  | [] => by simp [fix_surrogates_loop]
  | [c] => by
    intro hall x hx
    rw [fix_surrogates_loop.eq_2] at hx
    split_ifs at hx with h
    · rw [List.mem_singleton] at hx
      subst hx
      exact ⟨by norm_num, by decide⟩
    · rw [List.mem_singleton] at hx
      subst hx
      exact ⟨hall x (by simp), h⟩
  | c :: l :: rest => by
    intro hall x hx
    rw [fix_surrogates_loop.eq_3] at hx
    split_ifs at hx with h1 h2
    · cases List.mem_cons.mp hx with
      | inl heq =>
        obtain ⟨hc1, hc2, hl1, hl2⟩ := h1
        constructor
        · omega
        · simp only [isSurrogate, not_and, not_le]
          intro
          omega
      | inr hm =>
        exact fix_surrogates_loop_valid rest
          (fun y hy => hall y (by simp [hy])) x hm
    · cases List.mem_cons.mp hx with
      | inl heq =>
        subst heq
        exact ⟨by norm_num, by decide⟩
      | inr hm =>
        exact fix_surrogates_loop_valid (l :: rest)
          (fun y hy => hall y (by simp [List.mem_cons.mp hy])) x hm
    · cases List.mem_cons.mp hx with
      | inl heq =>
        subst heq
        exact ⟨hall x (by simp), h2⟩
      | inr hm =>
        exact fix_surrogates_loop_valid (l :: rest)
          (fun y hy => hall y (by simp [List.mem_cons.mp hy])) x hm

/-- fix_unicode_surrogate_pairs turns any stream of in-range code points
into a stream of in-range non-surrogate code points. -/
theorem fix_unicode_surrogate_pairs_valid (s : PyStr)
    (h : ∀ x ∈ s, x < 1114112) :
    ∀ x ∈ fix_unicode_surrogate_pairs s, x < 1114112 ∧ ¬ isSurrogate x := by
  unfold fix_unicode_surrogate_pairs
  split_ifs with h1 h2
  · simp
  · intro x hx
    exact ⟨h x hx, h2 x hx⟩
  · exact fix_surrogates_loop_valid s h

/-- Every code point that a one-to-many character replace emits is an
input code point or a code point of the replacement string. -/
theorem replace_char_with_mem (s : PyStr) (t : ℕ) (repl : PyStr) :
    ∀ x ∈ replace_char_with s t repl, x ∈ s ∨ x ∈ repl := by
  intro x hx
  rcases List.mem_flatMap.mp hx with ⟨a, ha, hxa⟩
  by_cases hat : a = t
  · rw [hat] at hxa
    simp only [if_pos rfl] at hxa
    exact Or.inr hxa
  · rw [if_neg hat] at hxa
    rw [List.mem_singleton] at hxa
    subst hxa
    exact Or.inl ha

/-- Folding ligature replacements only emits input code points or code
points of some replacement string. -/
theorem ligature_fold_mem :
    ∀ (pairs : List (ℕ × PyStr)) (s : PyStr),
      ∀ x ∈ pairs.foldl (fun acc p => replace_char_with acc p.1 p.2) s,
        x ∈ s ∨ ∃ p ∈ pairs, x ∈ p.2 := by
  intro pairs
  induction pairs with
  | nil => intro s x hx; exact Or.inl hx
  | cons p rest ih =>
    intro s x hx
    rw [List.foldl_cons] at hx
    rcases ih (replace_char_with s p.1 p.2) x hx with hm | ⟨q, hq, hxq⟩
    · rcases replace_char_with_mem s p.1 p.2 x hm with hs | hr
      · exact Or.inl hs
      · exact Or.inr ⟨p, by simp, hr⟩
    · exact Or.inr ⟨q, by simp [hq], hxq⟩

/-- Claim C8: postprocess_text is total on arbitrary code-point streams:
for every category oracle and every input whose code points are below
0x110000 (every Python string satisfies this), the output is a stream of
valid Unicode scalar values, that is, below 0x110000 and free of
surrogates, so it converts to a real string and the pipeline never
raises; moreover a high surrogate followed by a low surrogate recombines
as 0x10000 + ((high - 0xD800) << 10) + (low - 0xDC00), and a surrogate
not starting a valid pair becomes U+FFFD. -/
theorem postprocess_text_total_and_surrogate_repair :
    (∀ (isCategoryC : ℕ → Bool) (s : PyStr), (∀ x ∈ s, x < 1114112) →
      ∀ x ∈ postprocess_text isCategoryC s, x < 1114112 ∧ ¬ isSurrogate x) ∧
    (∀ (high low : ℕ) (rest : PyStr), 0xD800 ≤ high → high ≤ 0xDBFF →
      0xDC00 ≤ low → low ≤ 0xDFFF →
      fix_surrogates_loop (high :: low :: rest) =
        (0x10000 + (high - 0xD800) * 1024 + (low - 0xDC00)) ::
          fix_surrogates_loop rest) ∧
    (∀ (c : ℕ) (rest : PyStr), isSurrogate c →
      (∀ l rest2, rest = l :: rest2 →
        ¬(c ≤ 0xDBFF ∧ 0xDC00 ≤ l ∧ l ≤ 0xDFFF)) →
      fix_surrogates_loop (c :: rest) =
        0xFFFD :: fix_surrogates_loop rest) := by
  refine ⟨?_, ?_, ?_⟩
  · intro isCategoryC s hs x hx
    unfold postprocess_text at hx
    rcases ligature_fold_mem LIGATURES_codes _ x hx with hx2 | ⟨p, hp, hxp⟩
    · have hx3 := List.mem_filter.mp hx2
      refine fix_unicode_surrogate_pairs_valid _ ?_ x hx3.1
      intro y hy
      rcases replace_special_chars_mem _ y hy with hy2 | hy9
      · rcases replace_crlf_mem s y hy2 with hy3 | hy10
        · exact hs y hy3
        · omega
      · omega
    · fin_cases hp <;> simp [isSurrogate, not_and, not_le] at hxp ⊢ <;> omega
  · intro high low rest h1 h2 h3 h4
    rw [fix_surrogates_loop.eq_3, if_pos ⟨h1, h2, h3, h4⟩]
  · intro c rest hsur hno
    match rest with
    | [] =>
      rw [fix_surrogates_loop.eq_2, fix_surrogates_loop.eq_1, if_pos hsur]
    | l :: rest2 =>
      rw [fix_surrogates_loop.eq_3]
      rw [if_neg fun hall =>
        hno l rest2 rfl ⟨hall.2.1, hall.2.2.1, hall.2.2.2⟩]
      rw [if_pos hsur]

/-- Witness for C8 at a concrete malformed stream: a surrogate pair for
U+1F600 followed by a lone high surrogate; the emitted code point
0x1F600 is a valid non-surrogate scalar, and the repair loop recombines
the pair by the stated formula. -/
theorem postprocess_text_total_witness :
    ((0x1F600 : ℕ) < 1114112 ∧ ¬ isSurrogate 0x1F600) ∧
    fix_surrogates_loop [0xD83D, 0xDE00] = [0x1F600] := by
  constructor
  · exact postprocess_text_total_and_surrogate_repair.1 (fun _ => false)
      [0xD83D, 0xDE00, 0xD800] (by decide) 0x1F600 (by decide)
  · rw [postprocess_text_total_and_surrogate_repair.2.1 0xD83D 0xDE00 []
      (by norm_num) (by norm_num) (by norm_num) (by norm_num)]
    rfl

/-- Witness for C10: containment and minimality at concrete boxes. -/
theorem merge_contains_minimal_commutative_witness :
    (Bbox.mk 0 0 1 1).inside ((Bbox.mk 0 0 1 1).merge (Bbox.mk 2 2 3 3)) ∧
    ((Bbox.mk 0 0 1 1).merge (Bbox.mk 2 2 3 3)).inside (Bbox.mk 0 0 5 5) :=
  ⟨(merge_contains_minimal_commutative ⟨0, 0, 1, 1⟩ ⟨2, 2, 3, 3⟩).1.1,
   (merge_contains_minimal_commutative ⟨0, 0, 1, 1⟩ ⟨2, 2, 3, 3⟩).2.1
     ⟨0, 0, 5, 5⟩ (by decide) (by decide)⟩

end PdfText
